import Mathlib

/-!
# Verification of the penny-fincher recurring-transaction scheduler

Shallow embedding of the scheduler logic of `src/lib/googleSheets.ts`
(class `GoogleSheetsService`): `calculateNextDueDate`, `getDaysInMonth`,
`getRecurringTransactions`, `processRecurringTransaction`,
`processDueRecurringTransactions` and `toggleRecurringTransactionStatus`.

Modelling conventions:
* JavaScript `Date` values are modelled date-only (the spec declares all
  dates date-only, no time-of-day) as civil triples `(year, month, day)`
  with 1-based months.  Comparisons between `Date` objects are modelled by
  comparing day numbers (`toDayNumber`), which for date-only values agrees
  with timestamp comparison.
* JS date mutators are modelled by their ECMAScript `MakeDay` semantics:
  `setDate`/`setMonth`/`setFullYear` normalize out-of-range components by
  rolling the excess into the following months (`setDayNormAux`).
* String-to-date parsing (`new Date(s)` plus the `'Invalid Date'` test) is
  abstracted: a date-valued input is `Option Date`, where `none` models an
  absent or unparseable string and `some d` a successfully parsed date.
* Network effects (`fetch`) are modelled by passing the outcome of the
  transport explicitly (`Except String _`); a thrown exception is the
  `.error` case.
-/

/-- A civil date: the date-only content of a JS `Date`.  `month` is 1-based
(January = 1), unlike the 0-based `getMonth()`. -/
structure Date where
  year  : Nat
  month : Nat
  day   : Nat
deriving DecidableEq, Repr

/-- Gregorian leap-year rule, as implemented by the JS `Date` calendar. -/
def isLeapYear (y : Nat) : Bool :=
  (y % 4 == 0 && y % 100 != 0) || y % 400 == 0

/-- Source `getDaysInMonth(year, month)` (lines 953-955), which evaluates
`new Date(year, month + 1, 0).getDate()`.  The source passes a 0-based JS
month; here `month` is the corresponding 1-based civil month.  Months
outside 1..12 do not occur in the verified code paths; the default arm
returns 31. -/
def getDaysInMonth (year month : Nat) : Nat :=
  match month with
  | 2 => if isLeapYear year then 29 else 28
  | 4 | 6 | 9 | 11 => 30
  | _ => 31

/-- A structurally valid civil date (what `new Date(...)` normalization
always produces). -/
def Date.Valid (d : Date) : Prop :=
  1 ≤ d.year ∧ 1 ≤ d.month ∧ d.month ≤ 12 ∧ 1 ≤ d.day ∧
    d.day ≤ getDaysInMonth d.year d.month

instance (d : Date) : Decidable d.Valid := by
  unfold Date.Valid; infer_instance

/-- Number of leap years in `1..y`. -/
def leapsBefore (y : Nat) : Nat := y / 4 - y / 100 + y / 400

/-- Days of the year strictly before month `m` (1-based). -/
def daysBeforeMonth (leap : Bool) (m : Nat) : Nat :=
  (match m with
   | 1 => 0 | 2 => 31 | 3 => 59 | 4 => 90 | 5 => 120 | 6 => 151
   | 7 => 181 | 8 => 212 | 9 => 243 | 10 => 273 | 11 => 304 | _ => 334)
  + (if leap && decide (3 ≤ m) then 1 else 0)

/-- Linear day number of a civil date (day 0 = January 1 of year 1).
Used to model JS timestamp order and arithmetic on date-only values. -/
def toDayNumber (d : Date) : Nat :=
  365 * (d.year - 1) + leapsBefore (d.year - 1)
    + daysBeforeMonth (isLeapYear d.year) d.month + (d.day - 1)

/-- JS `getDay()`: day of week, 0 = Sunday.  Calibrated so that
2024-01-01 is a Monday (`getDay = 1`). -/
def Date.getDay (d : Date) : Nat := (toDayNumber d + 1) % 7

/-- Timestamp comparison `a < b` of two date-only JS `Date`s. -/
def Date.ltb (a b : Date) : Bool := toDayNumber a < toDayNumber b

/-- Timestamp comparison `a <= b` of two date-only JS `Date`s. -/
def Date.leb (a b : Date) : Bool := toDayNumber a ≤ toDayNumber b

/-- ECMAScript `MakeDay` day normalization: a nominal day `n` (1-based,
possibly exceeding the month length) in month `(y, m)` is rolled forward
into following months.  `fuel` bounds the recursion; `fuel = n` always
suffices since every step removes at least 28 days.  Models the behavior
of `setDate`/`setMonth`/`setFullYear` on out-of-range day components. -/
def setDayNormAux : Nat → Nat → Nat → Nat → Date
  | 0, y, m, n => ⟨y, m, n⟩
  | fuel + 1, y, m, n =>
    if getDaysInMonth y m < n then
      if m = 12 then setDayNormAux fuel (y + 1) 1 (n - 31)
      else setDayNormAux fuel y (m + 1) (n - getDaysInMonth y m)
    else ⟨y, m, n⟩

/-- The normalized date with nominal day `n` (1-based) of month `(y, m)`. -/
def setDayNorm (y m n : Nat) : Date := setDayNormAux n y m n

/-- JS `d.setDate(d.getDate() + k)` on a date-only value. -/
def addDays (d : Date) (k : Nat) : Date :=
  setDayNorm d.year d.month (d.day + k)

/-- Month-component normalization of `setMonth(getMonth() + k)`:
the nominal month `m + k` (1-based `m`) rolled into the right year. -/
def addMonthsYM (y m k : Nat) : Nat × Nat :=
  (y + (m - 1 + k) / 12, (m - 1 + k) % 12 + 1)

/-- JS `d.setMonth(d.getMonth() + k)` on a date-only value: normalize the
month component, then normalize the (possibly out-of-range) day. -/
def setMonthAdd (d : Date) (k : Nat) : Date :=
  let ym := addMonthsYM d.year d.month k
  setDayNorm ym.1 ym.2 d.day

/-- JS `d.setFullYear(d.getFullYear() + 1)` on a date-only value
(Feb 29 normalizes to Mar 1 in a non-leap target year). -/
def setFullYearAdd (d : Date) : Date :=
  setDayNorm (d.year + 1) d.month d.day

/-- Source `nextDate.setDate(Math.min(dayOfMonth, getDaysInMonth(...)))`:
the day-of-month clamp applied after a month/year advance. -/
def setDayClamp (d : Date) (dayOfMonth : Nat) : Date :=
  setDayNorm d.year d.month (min dayOfMonth (getDaysInMonth d.year d.month))

/-- The `switch (frequency)` of `calculateNextDueDate` (lines 871-936):
advances `nextDate` by one cycle.  `dayOfWeek` is modelled as a `Nat`
(`(dayOfWeek - currentDay + 7) % 7` is written `(dayOfWeek + 7 -
currentDay) % 7`, which agrees with the JS expression for any nonnegative
`dayOfWeek` since `currentDay < 7`). -/
def advanceByFrequency (frequency : String) (dayOfMonth dayOfWeek : Option Nat)
    (nextDate : Date) : Date :=
  match frequency with
  | "daily" => addDays nextDate 1
  | "weekly" =>
    let d7 := addDays nextDate 7
    match dayOfWeek with
    | some w => addDays d7 ((w + 7 - d7.getDay) % 7)
    | none => d7
  | "biweekly" =>
    let d14 := addDays nextDate 14
    match dayOfWeek with
    | some w => addDays d14 ((w + 7 - d14.getDay) % 7)
    | none => d14
  | "monthly" =>
    let dm := setMonthAdd nextDate 1
    match dayOfMonth with
    | some dom => setDayClamp dm dom
    | none => dm
  | "quarterly" =>
    let dq := setMonthAdd nextDate 3
    match dayOfMonth with
    | some dom => setDayClamp dq dom
    | none => dq
  | "yearly" =>
    let dy := setFullYearAdd nextDate
    match dayOfMonth with
    | some dom => setDayClamp dy dom
    | none => dy
  | _ =>
    -- Default to monthly if frequency is unknown (source line 933-935);
    -- note: the source default arm applies no day-of-month clamp.
    setMonthAdd nextDate 1

/-- Source `calculateNextDueDate` (lines 843-947).  `startDate` and
`lastProcessed` are post-parse (`none` = absent or `'Invalid Date'`);
`today` (`new Date()` in the source) is passed explicitly, date-only.
Returns the next due date (`none` models the `undefined` returns). -/
def calculateNextDueDate (frequency : String) (startDate : Option Date)
    (dayOfMonth dayOfWeek : Option Nat) (lastProcessed : Option Date)
    (today : Date) : Option Date :=
  let baseDate? : Option Date :=
    match lastProcessed with
    | some d => some d
    | none => startDate
  match baseDate? with
  | none => none
  | some baseDate =>
    -- Ensure we're calculating at least one day in the future
    let nextDate := if Date.ltb baseDate today then today else baseDate
    some (advanceByFrequency frequency dayOfMonth dayOfWeek nextDate)

/-- The scheduler-relevant fields of a `RecurringTransaction` (interface at
lines 414-429 / row mapping at lines 797-822).  Monetary amounts and the
opaque string fields (description, category, account, notes) are not
interpreted by the scheduler and are omitted; date- and int-valued columns
are post-parse (`none` = blank or unparseable). -/
structure RecurringTransaction where
  frequency     : String
  dayOfMonth    : Option Nat
  dayOfWeek     : Option Nat
  startDate     : Option Date
  endDate       : Option Date
  lastProcessed : Option Date
  nextDue       : Option Date
  active        : Bool
deriving DecidableEq, Repr

/-- The due-selection predicate of `processDueRecurringTransactions`
(lines 1106-1114): the body of the `filter` callback.  `nextDue` and
`today` are date-only (the source zeroes the time with `setHours`). -/
def isDueFilter (t : RecurringTransaction) (today : Date) : Bool :=
  if !t.active then false
  else
    match t.nextDue with
    | none => false
    | some nextDueDate => Date.leb nextDueDate today

/-- The due-template selection of `processDueRecurringTransactions`
(the spec's `selectDue`). -/
def selectDue (ts : List RecurringTransaction) (today : Date) :
    List RecurringTransaction :=
  ts.filter (fun t => isDueFilter t today)

/-- One parsed row of the `Recurring` sheet (columns A..N), as consumed by
`getRecurringTransactions` (lines 797-822).  Column letters: B =
`frequencyRaw` (`row[1]`), E = `startDate` (`row[4]`), J = `dayOfMonth`
(`row[9]`), K = `dayOfWeek` (`row[10]`), L = `endDate` (`row[11]`),
M = `lastProcessed` (`row[12]`), N = `activeRaw` (`row[13]`).  Dates and
ints are post-parse; opaque columns are omitted. -/
structure RawRow where
  frequencyRaw  : String := ""
  startDate     : Option Date := none
  dayOfMonth    : Option Nat := none
  dayOfWeek     : Option Nat := none
  endDate       : Option Date := none
  lastProcessed : Option Date := none
  activeRaw     : String := ""
deriving Repr

/-- Source `getRecurringTransactions` (lines 779-831).  `fetchResult` is
the outcome of the `fetch` of `Recurring!A2:N` (`.error` covers both a
rejected fetch and the `!response.ok` throw — both land in the same
`catch`, which logs and returns `[]`).  `today` is the clock read by the
embedded `calculateNextDueDate` call. -/
def getRecurringTransactions (fetchResult : Except String (List RawRow))
    (today : Date) : List RecurringTransaction :=
  match fetchResult with
  | .error _ => []
  | .ok rows =>
    rows.map fun r =>
      { frequency := if r.frequencyRaw = "" then "monthly" else r.frequencyRaw
        dayOfMonth := r.dayOfMonth
        dayOfWeek := r.dayOfWeek
        startDate := r.startDate
        endDate := r.endDate
        lastProcessed := r.lastProcessed
        nextDue := calculateNextDueDate r.frequencyRaw r.startDate
          r.dayOfMonth r.dayOfWeek r.lastProcessed today
        active := r.activeRaw = "TRUE" || r.activeRaw = "true" ||
          r.activeRaw = "1" }

/-- The `nextDue` value computed (and written back) by one
`processRecurringTransaction` call run on day `today` (lines 1060-1066):
the source passes `today` as the `lastProcessed` argument of
`calculateNextDueDate`. -/
def processedNextDue (t : RecurringTransaction) (today : Date) : Option Date :=
  calculateNextDueDate t.frequency t.startDate t.dayOfMonth t.dayOfWeek
    (some today) today

/-- The `for`-loop of `processDueRecurringTransactions` (lines 1116-1127)
over the due templates, each paired with the outcome of its awaited
`processRecurringTransaction` call: a rejected call makes the whole batch
reject with that error (the `catch` at line 1124 rethrows), discarding
`processedCount`; otherwise the number of processed templates is
returned. -/
def processLoop :
    List (RecurringTransaction × Except String Unit) → Except String Nat
  | [] => .ok 0
  | (_, .error e) :: _ => .error e
  | (_, .ok ()) :: rest => (processLoop rest).map (· + 1)

/-- The templates on which the loop of `processDueRecurringTransactions`
actually starts a `processRecurringTransaction` call: everything after the
first failing template is never attempted. -/
def attemptedTemplates :
    List (RecurringTransaction × Except String Unit) →
      List RecurringTransaction
  | [] => []
  | (t, .error _) :: _ => [t]
  | (t, .ok ()) :: rest => t :: attemptedTemplates rest

/-- Source `processDueRecurringTransactions` (lines 1099-1133):
fetch the templates, filter the due ones, process them sequentially.
`outcomes` gives each template's persistence outcome. -/
def processDueRecurringTransactions (fetchResult : Except String (List RawRow))
    (today : Date) (outcomes : RecurringTransaction → Except String Unit) :
    Except String Nat :=
  let due := selectDue (getRecurringTransactions fetchResult today) today
  processLoop (due.map fun t => (t, outcomes t))

/-- Source `toggleRecurringTransactionStatus` (lines 1138-1171) acting on
the `Recurring` sheet modelled as a cell grid (`row`, 0-based column
index; column N = index 13 holds the Active flag).  The source PUTs the
single-cell range `N{rowNumber}:N{rowNumber}` with value `'TRUE'`/`'FALSE'`;
the row number is the one extracted from the `recurring-(\d+)` template id. -/
def toggleRecurringTransactionStatus (grid : Nat → Nat → String)
    (rowNumber : Nat) (activeStatus : Bool) : Nat → Nat → String :=
  fun r c =>
    if r = rowNumber && c = 13 then (if activeStatus then "TRUE" else "FALSE")
    else grid r c

/-- Month index: months elapsed since January of year 0.  For valid dates
this enumerates civil months in chronological order. -/
def Date.mIdx (d : Date) : Nat := 12 * d.year + (d.month - 1)

/-- Day number of the first day of the month with index `i`. -/
def firstN (i : Nat) : Nat := toDayNumber ⟨i / 12, i % 12 + 1, 1⟩

/-- Length of the month with index `i`. -/
def dimN (i : Nat) : Nat := getDaysInMonth (i / 12) (i % 12 + 1)

/-- The class of templates for which `processRecurringTransaction`'s
computed `nextDue` is monotone in the processing day (the amended claim
C6): daily/weekly/biweekly cycles with any anchors, yearly cycles, and
monthly/quarterly cycles carrying a positive `dayOfMonth` anchor.  (Without
the `dayOfMonth` clamp, the month-add normalization `Jan 31 + 1 month =
Mar 2/3` makes the result non-monotone.) -/
def monotoneSchedule (t : RecurringTransaction) : Prop :=
  t.frequency = "daily" ∨ t.frequency = "weekly" ∨ t.frequency = "biweekly" ∨
    ((t.frequency = "monthly" ∨ t.frequency = "quarterly") ∧
      ∃ dom, t.dayOfMonth = some dom ∧ 1 ≤ dom) ∨
    (t.frequency = "yearly" ∧
      (t.dayOfMonth = none ∨ ∃ dom, t.dayOfMonth = some dom ∧ 1 ≤ dom))

/-! ## Calendar arithmetic lemmas -/

theorem getDaysInMonth_bounds (y m : Nat) :
    28 ≤ getDaysInMonth y m ∧ getDaysInMonth y m ≤ 31 := by
  unfold getDaysInMonth
  split <;> (try split) <;> omega

theorem leapsBefore_succ (y : Nat) :
    leapsBefore (y + 1) = leapsBefore y + (if isLeapYear (y + 1) then 1 else 0) := by
  simp only [leapsBefore, isLeapYear]
  split
  · rename_i h
    simp only [Bool.or_eq_true, Bool.and_eq_true, beq_iff_eq, bne_iff_ne,
      ne_eq] at h
    omega
  · rename_i h
    simp only [Bool.or_eq_true, Bool.and_eq_true, beq_iff_eq, bne_iff_ne,
      ne_eq, not_or, not_and] at h
    omega

theorem daysBeforeMonth_step (y m : Nat) (h1 : 1 ≤ m) (hm : m < 12) :
    daysBeforeMonth (isLeapYear y) (m + 1)
      = daysBeforeMonth (isLeapYear y) m + getDaysInMonth y m := by
  interval_cases m <;>
    cases hL : isLeapYear y <;>
      simp [daysBeforeMonth, getDaysInMonth, hL]

theorem toDayNumber_day (y m d : Nat) :
    toDayNumber ⟨y, m, d⟩ = toDayNumber ⟨y, m, 1⟩ + (d - 1) := by
  simp only [toDayNumber]
  omega

theorem toDayNumber_month_step (y m : Nat) (h1 : 1 ≤ m) (hm : m < 12) :
    toDayNumber ⟨y, m + 1, 1⟩ = toDayNumber ⟨y, m, 1⟩ + getDaysInMonth y m := by
  simp only [toDayNumber]
  rw [daysBeforeMonth_step y m h1 hm]
  omega

theorem daysBeforeMonth_one (L : Bool) : daysBeforeMonth L 1 = 0 := by
  simp [daysBeforeMonth]

theorem daysBeforeMonth_twelve (L : Bool) :
    daysBeforeMonth L 12 = 334 + (if L then 1 else 0) := by
  cases L <;> simp [daysBeforeMonth]

theorem toDayNumber_year_step (y : Nat) (hy : 1 ≤ y) :
    toDayNumber ⟨y + 1, 1, 1⟩ = toDayNumber ⟨y, 12, 1⟩ + 31 := by
  have h := leapsBefore_succ (y - 1)
  rw [Nat.sub_add_cancel hy] at h
  simp only [toDayNumber, daysBeforeMonth_one, daysBeforeMonth_twelve,
    Nat.add_sub_cancel]
  cases hL : isLeapYear y <;> rw [hL] at h <;> simp at h ⊢ <;> omega


theorem firstN_of_ym (y m : Nat) (h1 : 1 ≤ m) (hm : m ≤ 12) :
    firstN (12 * y + (m - 1)) = toDayNumber ⟨y, m, 1⟩ := by
  have h2 : (12 * y + (m - 1)) / 12 = y := by omega
  have h3 : (12 * y + (m - 1)) % 12 + 1 = m := by omega
  unfold firstN
  rw [h2, h3]

theorem dimN_of_ym (y m : Nat) (h1 : 1 ≤ m) (hm : m ≤ 12) :
    dimN (12 * y + (m - 1)) = getDaysInMonth y m := by
  have h2 : (12 * y + (m - 1)) / 12 = y := by omega
  have h3 : (12 * y + (m - 1)) % 12 + 1 = m := by omega
  unfold dimN
  rw [h2, h3]

theorem firstN_step (i : Nat) (h : 12 ≤ i) :
    firstN (i + 1) = firstN i + dimN i := by
  rcases Nat.lt_or_ge (i % 12) 11 with hlt | hge
  · have h1 : (i + 1) / 12 = i / 12 := by omega
    have h2 : (i + 1) % 12 = i % 12 + 1 := by omega
    unfold firstN dimN
    rw [h1, h2]
    exact toDayNumber_month_step (i / 12) (i % 12 + 1) (by omega) (by omega)
  · have h11 : i % 12 = 11 := by omega
    have h1 : (i + 1) / 12 = i / 12 + 1 := by omega
    have h2 : (i + 1) % 12 = 0 := by omega
    unfold firstN dimN
    rw [h1, h2, h11]
    norm_num
    have := toDayNumber_year_step (i / 12) (by omega)
    simpa [getDaysInMonth] using this

theorem firstN_mono28 (i j : Nat) (h12 : 12 ≤ i) (hij : i ≤ j) :
    firstN i + 28 * (j - i) ≤ firstN j := by
  induction j with
  | zero => omega
  | succ j ih =>
    rcases Nat.lt_or_ge j i with hj | hj
    · have hij' : i = j + 1 := by omega
      subst hij'
      omega
    · have hstep := firstN_step j (by omega)
      have hb := getDaysInMonth_bounds (j / 12) (j % 12 + 1)
      have hdim : 28 ≤ dimN j ∧ dimN j ≤ 31 := hb
      have := ih hj
      omega

theorem firstN_mono (i j : Nat) (h12 : 12 ≤ i) (hij : i ≤ j) :
    firstN i ≤ firstN j := by
  have := firstN_mono28 i j h12 hij
  omega

theorem mIdx_ge (d : Date) (h : d.Valid) : 12 ≤ d.mIdx := by
  obtain ⟨hy, hm1, _, _, _⟩ := h
  unfold Date.mIdx
  omega

theorem toDayNumber_eq_firstN (d : Date) (h : d.Valid) :
    toDayNumber d = firstN d.mIdx + (d.day - 1) ∧
      dimN d.mIdx = getDaysInMonth d.year d.month := by
  obtain ⟨hy, hm1, hm2, hd1, hd2⟩ := h
  constructor
  · rw [Date.mIdx, firstN_of_ym d.year d.month hm1 hm2]
    exact toDayNumber_day d.year d.month d.day
  · rw [Date.mIdx, dimN_of_ym d.year d.month hm1 hm2]

theorem toDayNumber_bracket (d : Date) (h : d.Valid) :
    firstN d.mIdx ≤ toDayNumber d ∧ toDayNumber d < firstN (d.mIdx + 1) := by
  obtain ⟨he, hdim⟩ := toDayNumber_eq_firstN d h
  have hstep := firstN_step d.mIdx (mIdx_ge d h)
  obtain ⟨_, _, _, hd1, hd2⟩ := h
  omega

theorem mIdx_le_of_le (d1 d2 : Date) (h1 : d1.Valid) (h2 : d2.Valid)
    (hle : toDayNumber d1 ≤ toDayNumber d2) : d1.mIdx ≤ d2.mIdx := by
  by_contra hcon
  push_neg at hcon
  have hb1 := toDayNumber_bracket d1 h1
  have hb2 := toDayNumber_bracket d2 h2
  have hmono : firstN (d2.mIdx + 1) ≤ firstN d1.mIdx :=
    firstN_mono _ _ (by have := mIdx_ge d2 h2; omega) (by omega)
  omega

theorem mIdx_eq_of_bracket (d : Date) (i : Nat) (h : d.Valid) (hi : 12 ≤ i)
    (hlow : firstN i ≤ toDayNumber d)
    (hhigh : toDayNumber d < firstN (i + 1)) : d.mIdx = i := by
  have hb := toDayNumber_bracket d h
  have hge := mIdx_ge d h
  rcases Nat.lt_trichotomy d.mIdx i with hlt | heq | hgt
  · have : firstN (d.mIdx + 1) ≤ firstN i := firstN_mono _ _ (by omega) (by omega)
    omega
  · exact heq
  · have : firstN (i + 1) ≤ firstN d.mIdx := firstN_mono _ _ (by omega) (by omega)
    omega

theorem setDayNormAux_spec (fuel : Nat) : ∀ (y m n : Nat), 1 ≤ y → 1 ≤ m →
    m ≤ 12 → 1 ≤ n → n ≤ 28 * fuel + 28 →
    (setDayNormAux fuel y m n).Valid ∧
      toDayNumber (setDayNormAux fuel y m n) = toDayNumber ⟨y, m, 1⟩ + (n - 1) := by
  induction fuel with
  | zero =>
    intro y m n hy hm1 hm2 hn1 hn2
    have hb := getDaysInMonth_bounds y m
    simp only [setDayNormAux]
    exact ⟨⟨hy, hm1, hm2, hn1, by show n ≤ getDaysInMonth y m; omega⟩,
      toDayNumber_day y m n⟩
  | succ fuel ih =>
    intro y m n hy hm1 hm2 hn1 hn2
    have hb := getDaysInMonth_bounds y m
    simp only [setDayNormAux]
    split
    · rename_i hlt
      split
      · rename_i hm12
        subst hm12
        have h31 : getDaysInMonth y 12 = 31 := by simp [getDaysInMonth]
        have hrec := ih (y + 1) 1 (n - 31) (by omega) (by omega) (by omega)
          (by omega) (by omega)
        have hstep := toDayNumber_year_step y hy
        exact ⟨hrec.1, by rw [hrec.2]; omega⟩
      · rename_i hm12
        have hrec := ih y (m + 1) (n - getDaysInMonth y m) (by omega)
          (by omega) (by omega) (by omega) (by omega)
        have hstep := toDayNumber_month_step y m hm1 (by omega)
        exact ⟨hrec.1, by rw [hrec.2]; omega⟩
    · rename_i hge
      exact ⟨⟨hy, hm1, hm2, hn1, by show n ≤ getDaysInMonth y m; omega⟩,
        toDayNumber_day y m n⟩

theorem setDayNorm_spec (y m n : Nat) (hy : 1 ≤ y) (hm1 : 1 ≤ m)
    (hm2 : m ≤ 12) (hn : 1 ≤ n) :
    (setDayNorm y m n).Valid ∧
      toDayNumber (setDayNorm y m n) = toDayNumber ⟨y, m, 1⟩ + (n - 1) :=
  setDayNormAux_spec n y m n hy hm1 hm2 hn (by omega)

theorem Date.valid_mk (y m day : Nat) :
    (Date.mk y m day).Valid ↔
      1 ≤ y ∧ 1 ≤ m ∧ m ≤ 12 ∧ 1 ≤ day ∧ day ≤ getDaysInMonth y m :=
  Iff.rfl

theorem dimN_bounds (i : Nat) : 28 ≤ dimN i ∧ dimN i ≤ 31 :=
  getDaysInMonth_bounds _ _

theorem addDays_spec (d : Date) (k : Nat) (h : d.Valid) :
    (addDays d k).Valid ∧ toDayNumber (addDays d k) = toDayNumber d + k := by
  obtain ⟨y, m, day⟩ := d
  rw [Date.valid_mk] at h
  obtain ⟨hy, hm1, hm2, hd1, hd2⟩ := h
  have hs := setDayNorm_spec y m (day + k) hy hm1 hm2 (by omega)
  have hday := toDayNumber_day y m day
  refine ⟨hs.1, ?_⟩
  show toDayNumber (setDayNorm y m (day + k)) = _
  rw [hs.2, hday]
  omega

theorem addMonthsYM_props (y m k : Nat) (hm1 : 1 ≤ m) (hm2 : m ≤ 12) :
    1 ≤ (addMonthsYM y m k).2 ∧ (addMonthsYM y m k).2 ≤ 12 ∧
      y ≤ (addMonthsYM y m k).1 ∧
      12 * (addMonthsYM y m k).1 + ((addMonthsYM y m k).2 - 1)
        = 12 * y + (m - 1) + k := by
  simp only [addMonthsYM]
  exact ⟨by omega, by omega, by omega, by omega⟩

theorem setMonthAdd_spec (d : Date) (k : Nat) (h : d.Valid) :
    (setMonthAdd d k).Valid ∧
      toDayNumber (setMonthAdd d k) = firstN (d.mIdx + k) + (d.day - 1) := by
  obtain ⟨y, m, day⟩ := d
  rw [Date.valid_mk] at h
  obtain ⟨hy, hm1, hm2, hd1, hd2⟩ := h
  obtain ⟨hp1, hp2, hp3, hp4⟩ := addMonthsYM_props y m k hm1 hm2
  have hs := setDayNorm_spec (addMonthsYM y m k).1 (addMonthsYM y m k).2 day
    (by omega) hp1 hp2 hd1
  have hf : firstN (Date.mIdx ⟨y, m, day⟩ + k)
      = toDayNumber ⟨(addMonthsYM y m k).1, (addMonthsYM y m k).2, 1⟩ := by
    rw [← firstN_of_ym (addMonthsYM y m k).1 (addMonthsYM y m k).2 hp1 hp2]
    congr 1
    simp only [Date.mIdx]
    omega
  refine ⟨hs.1, ?_⟩
  show toDayNumber (setDayNorm (addMonthsYM y m k).1 (addMonthsYM y m k).2 day) = _
  rw [hs.2, hf]

theorem setMonthAdd_mIdx (d : Date) (k : Nat) (h : d.Valid) :
    d.mIdx + k ≤ (setMonthAdd d k).mIdx ∧
      (setMonthAdd d k).mIdx ≤ d.mIdx + k + 1 := by
  obtain ⟨hv, hN⟩ := setMonthAdd_spec d k h
  have hd2 : d.day ≤ 31 := le_trans h.2.2.2.2 (getDaysInMonth_bounds _ _).2
  have hd1 : 1 ≤ d.day := h.2.2.2.1
  have hbr := toDayNumber_bracket _ hv
  have hgeK : 12 ≤ d.mIdx + k := by have := mIdx_ge d h; omega
  have hgeR : 12 ≤ (setMonthAdd d k).mIdx := mIdx_ge _ hv
  constructor
  · by_contra hcon
    push_neg at hcon
    have : firstN ((setMonthAdd d k).mIdx + 1) ≤ firstN (d.mIdx + k) :=
      firstN_mono _ _ (by omega) (by omega)
    omega
  · by_contra hcon
    push_neg at hcon
    have hstep1 := firstN_step (d.mIdx + k) hgeK
    have hstep2 := firstN_step (d.mIdx + k + 1) (by omega)
    have hb1 := dimN_bounds (d.mIdx + k)
    have hb2 := dimN_bounds (d.mIdx + k + 1)
    have : firstN (d.mIdx + k + 1 + 1) ≤ firstN (setMonthAdd d k).mIdx :=
      firstN_mono _ _ (by omega) (by omega)
    omega

theorem setFullYearAdd_eq (d : Date) (h : d.Valid) :
    setFullYearAdd d = setMonthAdd d 12 := by
  obtain ⟨y, m, day⟩ := d
  rw [Date.valid_mk] at h
  show setDayNorm (y + 1) m day
    = setDayNorm (addMonthsYM y m 12).1 (addMonthsYM y m 12).2 day
  have e1 : (addMonthsYM y m 12).1 = y + 1 := by
    simp only [addMonthsYM]
    omega
  have e2 : (addMonthsYM y m 12).2 = m := by
    simp only [addMonthsYM]
    omega
  rw [e1, e2]

theorem setDayNorm_of_le (y m n : Nat) (h1 : 1 ≤ n)
    (h2 : n ≤ getDaysInMonth y m) : setDayNorm y m n = ⟨y, m, n⟩ := by
  unfold setDayNorm
  rcases n with _ | k
  · omega
  · simp only [setDayNormAux]
    rw [if_neg (by omega)]

theorem setDayClamp_eq (d : Date) (dom : Nat) (hdom : 1 ≤ dom) :
    setDayClamp d dom
      = ⟨d.year, d.month, min dom (getDaysInMonth d.year d.month)⟩ := by
  have hb := getDaysInMonth_bounds d.year d.month
  exact setDayNorm_of_le _ _ _ (by omega) (by omega)

theorem ltb_self (d : Date) : Date.ltb d d = false := by
  simp [Date.ltb]

theorem processedNextDue_eq (t : RecurringTransaction) (today : Date) :
    processedNextDue t today
      = some (advanceByFrequency t.frequency t.dayOfMonth t.dayOfWeek today) := by
  simp [processedNextDue, calculateNextDueDate, ltb_self]

theorem getDaysInMonth_year (y y' m : Nat) :
    getDaysInMonth y m ≤ getDaysInMonth y' m + 1 := by
  unfold getDaysInMonth
  split <;> first
    | omega
    | (split <;> split <;> omega)

theorem dimN_year_step (i : Nat) : dimN i ≤ dimN (i + 12) + 1 := by
  unfold dimN
  have h1 : (i + 12) / 12 = i / 12 + 1 := by omega
  have h2 : (i + 12) % 12 = i % 12 := by omega
  rw [h1, h2]
  exact getDaysInMonth_year _ _ _

theorem advance_week_mono (c w : Nat) (t1 t2 : Date) (h1 : t1.Valid)
    (h2 : t2.Valid) (hle : toDayNumber t1 ≤ toDayNumber t2) :
    toDayNumber (addDays (addDays t1 c) ((w + 7 - (addDays t1 c).getDay) % 7))
      ≤ toDayNumber (addDays (addDays t2 c)
          ((w + 7 - (addDays t2 c).getDay) % 7)) := by
  obtain ⟨v1, e1⟩ := addDays_spec t1 c h1
  obtain ⟨v2, e2⟩ := addDays_spec t2 c h2
  obtain ⟨v1', e1'⟩ := addDays_spec _ ((w + 7 - (addDays t1 c).getDay) % 7) v1
  obtain ⟨v2', e2'⟩ := addDays_spec _ ((w + 7 - (addDays t2 c).getDay) % 7) v2
  rw [e1', e2']
  simp only [Date.getDay, e1, e2]
  omega

theorem setDayClamp_N (r : Date) (dom : Nat) (hdom : 1 ≤ dom) (hv : r.Valid) :
    (setDayClamp r dom).Valid ∧
      toDayNumber (setDayClamp r dom)
        = firstN r.mIdx + (min dom (dimN r.mIdx) - 1) ∧
      (setDayClamp r dom).day = min dom (getDaysInMonth r.year r.month) ∧
      (setDayClamp r dom).year = r.year ∧
      (setDayClamp r dom).month = r.month := by
  have hv' := hv
  obtain ⟨hy, hm1, hm2, hd1, hd2⟩ := hv'
  have hb := getDaysInMonth_bounds r.year r.month
  have hdim := (toDayNumber_eq_firstN r hv).2
  rw [setDayClamp_eq r dom hdom]
  have hvc : (Date.mk r.year r.month
      (min dom (getDaysInMonth r.year r.month))).Valid := by
    rw [Date.valid_mk]
    omega
  refine ⟨hvc, ?_, rfl, rfl, rfl⟩
  have hday := toDayNumber_day r.year r.month
    (min dom (getDaysInMonth r.year r.month))
  have hfirst : firstN r.mIdx = toDayNumber ⟨r.year, r.month, 1⟩ :=
    firstN_of_ym r.year r.month hm1 hm2
  rw [hday, ← hfirst, hdim]

theorem clampH_mono (dom : Nat) (i j : Nat) (hi : 12 ≤ i) (hij : i ≤ j) :
    firstN i + (min dom (dimN i) - 1) ≤ firstN j + (min dom (dimN j) - 1) := by
  induction j with
  | zero => omega
  | succ j ih =>
    rcases Nat.lt_or_ge j i with hj | hj
    · have hij' : i = j + 1 := by omega
      subst hij'
      omega
    · have hstep := firstN_step j (by omega)
      have hb1 := dimN_bounds j
      have hb2 := dimN_bounds (j + 1)
      have := ih hj
      omega

theorem monthClamp_mono (k dom : Nat) (hdom : 1 ≤ dom) (t1 t2 : Date)
    (h1 : t1.Valid) (h2 : t2.Valid)
    (hle : toDayNumber t1 ≤ toDayNumber t2) :
    toDayNumber (setDayClamp (setMonthAdd t1 k) dom)
      ≤ toDayNumber (setDayClamp (setMonthAdd t2 k) dom) := by
  obtain ⟨rv1, rN1⟩ := setMonthAdd_spec t1 k h1
  obtain ⟨rv2, rN2⟩ := setMonthAdd_spec t2 k h2
  obtain ⟨rl1, ru1⟩ := setMonthAdd_mIdx t1 k h1
  obtain ⟨rl2, ru2⟩ := setMonthAdd_mIdx t2 k h2
  obtain ⟨cv1, cN1, -, -, -⟩ := setDayClamp_N (setMonthAdd t1 k) dom hdom rv1
  obtain ⟨cv2, cN2, -, -, -⟩ := setDayClamp_N (setMonthAdd t2 k) dom hdom rv2
  rw [cN1, cN2]
  have hgeR : 12 ≤ (setMonthAdd t1 k).mIdx := mIdx_ge _ rv1
  apply clampH_mono dom _ _ hgeR
  have hi12 : t1.mIdx ≤ t2.mIdx := mIdx_le_of_le t1 t2 h1 h2 hle
  rcases Nat.lt_or_ge t1.mIdx t2.mIdx with hlt' | hge'
  · omega
  · have he : t1.mIdx = t2.mIdx := by omega
    have hN1 := (toDayNumber_eq_firstN t1 h1).1
    have hN2 := (toDayNumber_eq_firstN t2 h2).1
    have hd1 : 1 ≤ t1.day := h1.2.2.2.1
    have hd2 : 1 ≤ t2.day := h2.2.2.2.1
    have hNr : toDayNumber (setMonthAdd t1 k) ≤ toDayNumber (setMonthAdd t2 k) := by
      rw [rN1, rN2, he]
      rw [he] at hN1
      omega
    exact mIdx_le_of_le _ _ rv1 rv2 hNr

theorem yearNoClamp_mono (t1 t2 : Date) (h1 : t1.Valid) (h2 : t2.Valid)
    (hle : toDayNumber t1 ≤ toDayNumber t2) :
    toDayNumber (setMonthAdd t1 12) ≤ toDayNumber (setMonthAdd t2 12) := by
  obtain ⟨rv1, rN1⟩ := setMonthAdd_spec t1 12 h1
  obtain ⟨rv2, rN2⟩ := setMonthAdd_spec t2 12 h2
  rw [rN1, rN2]
  have hi12 : t1.mIdx ≤ t2.mIdx := mIdx_le_of_le t1 t2 h1 h2 hle
  have hN1 := (toDayNumber_eq_firstN t1 h1).1
  have hN2 := (toDayNumber_eq_firstN t2 h2).1
  rcases Nat.eq_or_lt_of_le hi12 with he | hlt'
  · rw [he]
    rw [he] at hN1
    omega
  · have hd1max : t1.day ≤ dimN t1.mIdx := by
      have hdim := (toDayNumber_eq_firstN t1 h1).2
      have := h1.2.2.2.2
      omega
    have hsame := dimN_year_step t1.mIdx
    have hge := mIdx_ge t1 h1
    have hstep := firstN_step (t1.mIdx + 12) (by omega)
    have hmono : firstN (t1.mIdx + 12 + 1) ≤ firstN (t2.mIdx + 12) :=
      firstN_mono _ _ (by omega) (by omega)
    have hd2 : 1 ≤ t2.day := h2.2.2.2.1
    omega

theorem advanceByFrequency_mono (t : RecurringTransaction)
    (hm : monotoneSchedule t) (t1 t2 : Date) (h1 : t1.Valid) (h2 : t2.Valid)
    (hle : toDayNumber t1 ≤ toDayNumber t2) :
    toDayNumber (advanceByFrequency t.frequency t.dayOfMonth t.dayOfWeek t1)
      ≤ toDayNumber (advanceByFrequency t.frequency t.dayOfMonth t.dayOfWeek t2) := by
  rcases hm with hf | hf | hf | ⟨hf, dom, hdom, hdom1⟩ | ⟨hf, hdom⟩
  · rw [hf]
    show toDayNumber (addDays t1 1) ≤ toDayNumber (addDays t2 1)
    have a1 := (addDays_spec t1 1 h1).2
    have a2 := (addDays_spec t2 1 h2).2
    omega
  · rw [hf]
    cases hdow : t.dayOfWeek with
    | none =>
      show toDayNumber (addDays t1 7) ≤ toDayNumber (addDays t2 7)
      have a1 := (addDays_spec t1 7 h1).2
      have a2 := (addDays_spec t2 7 h2).2
      omega
    | some w =>
      show toDayNumber
          (addDays (addDays t1 7) ((w + 7 - (addDays t1 7).getDay) % 7))
        ≤ toDayNumber
          (addDays (addDays t2 7) ((w + 7 - (addDays t2 7).getDay) % 7))
      exact advance_week_mono 7 w t1 t2 h1 h2 hle
  · rw [hf]
    cases hdow : t.dayOfWeek with
    | none =>
      show toDayNumber (addDays t1 14) ≤ toDayNumber (addDays t2 14)
      have a1 := (addDays_spec t1 14 h1).2
      have a2 := (addDays_spec t2 14 h2).2
      omega
    | some w =>
      show toDayNumber
          (addDays (addDays t1 14) ((w + 7 - (addDays t1 14).getDay) % 7))
        ≤ toDayNumber
          (addDays (addDays t2 14) ((w + 7 - (addDays t2 14).getDay) % 7))
      exact advance_week_mono 14 w t1 t2 h1 h2 hle
  · rcases hf with hf | hf
    · rw [hf, hdom]
      show toDayNumber (setDayClamp (setMonthAdd t1 1) dom)
        ≤ toDayNumber (setDayClamp (setMonthAdd t2 1) dom)
      exact monthClamp_mono 1 dom hdom1 t1 t2 h1 h2 hle
    · rw [hf, hdom]
      show toDayNumber (setDayClamp (setMonthAdd t1 3) dom)
        ≤ toDayNumber (setDayClamp (setMonthAdd t2 3) dom)
      exact monthClamp_mono 3 dom hdom1 t1 t2 h1 h2 hle
  · rcases hdom with hnone | ⟨dom, hdom, hdom1⟩
    · rw [hf, hnone]
      show toDayNumber (setFullYearAdd t1) ≤ toDayNumber (setFullYearAdd t2)
      rw [setFullYearAdd_eq t1 h1, setFullYearAdd_eq t2 h2]
      exact yearNoClamp_mono t1 t2 h1 h2 hle
    · rw [hf, hdom]
      show toDayNumber (setDayClamp (setFullYearAdd t1) dom)
        ≤ toDayNumber (setDayClamp (setFullYearAdd t2) dom)
      rw [setFullYearAdd_eq t1 h1, setFullYearAdd_eq t2 h2]
      exact monthClamp_mono 12 dom hdom1 t1 t2 h1 h2 hle

theorem processedNextDue_mono (t : RecurringTransaction)
    (hm : monotoneSchedule t) (d1 d2 : Date) (h1 : d1.Valid) (h2 : d2.Valid)
    (hle : toDayNumber d1 ≤ toDayNumber d2) (n1 n2 : Date)
    (e1 : processedNextDue t d1 = some n1)
    (e2 : processedNextDue t d2 = some n2) :
    toDayNumber n1 ≤ toDayNumber n2 := by
  rw [processedNextDue_eq] at e1 e2
  injection e1 with e1
  injection e2 with e2
  rw [← e1, ← e2]
  exact advanceByFrequency_mono t hm d1 d2 h1 h2 hle

theorem addDays_zero (d : Date) (h : d.Valid) : addDays d 0 = d := by
  obtain ⟨y, m, day⟩ := d
  rw [Date.valid_mk] at h
  show setDayNorm y m (day + 0) = _
  rw [Nat.add_zero]
  exact setDayNorm_of_le y m day h.2.2.2.1 h.2.2.2.2

theorem advanceByFrequency_default (freq : String) (dom dow : Option Nat)
    (d : Date) (h1 : freq ≠ "daily") (h2 : freq ≠ "weekly")
    (h3 : freq ≠ "biweekly") (h4 : freq ≠ "monthly") (h5 : freq ≠ "quarterly")
    (h6 : freq ≠ "yearly") :
    advanceByFrequency freq dom dow d = setMonthAdd d 1 := by
  unfold advanceByFrequency
  split <;> simp_all


/-! ## Claim theorems -/

/-- C1: evidence at the failing input.  The due-selection filter of
`processDueRecurringTransactions` never consults `endDate`: the template
below has `endDate = 2024-01-01`, strictly before `today = 2024-06-01`,
and is active with `nextDue = 2024-05-01 ≤ today`, yet it is selected —
while the claim (and the documented meaning of End Date) requires that it
never be selected once its `endDate` has passed. -/
theorem c1_selectDue_ignores_endDate :
    Date.ltb ⟨2024, 1, 1⟩ ⟨2024, 6, 1⟩ = true ∧
      isDueFilter
        ⟨"monthly", some 1, none, some ⟨2023, 1, 1⟩, some ⟨2024, 1, 1⟩,
          some ⟨2024, 4, 1⟩, some ⟨2024, 5, 1⟩, true⟩ ⟨2024, 6, 1⟩ = true ∧
      selectDue
        [⟨"monthly", some 1, none, some ⟨2023, 1, 1⟩, some ⟨2024, 1, 1⟩,
          some ⟨2024, 4, 1⟩, some ⟨2024, 5, 1⟩, true⟩] ⟨2024, 6, 1⟩
        = [⟨"monthly", some 1, none, some ⟨2023, 1, 1⟩, some ⟨2024, 1, 1⟩,
          some ⟨2024, 4, 1⟩, some ⟨2024, 5, 1⟩, true⟩] := by
  decide

/-- C2: the Monthly advance-and-clamp step of `calculateNextDueDate` with
`dayOfMonth = 31`: whenever the one-month advance lands in February, the
clamped day is 28 in a non-leap year and 29 in a leap year; and in general
(for any supplied `dayOfMonth ≥ 1`) the resulting day is
`min(dayOfMonth, daysInResultingMonth)`. -/
theorem c2_monthly_clamp (sd : Option Date) (dow : Option Nat)
    (lp today base r : Date) (hlp : lp.Valid) (htoday : today.Valid)
    (hbase : base = if Date.ltb lp today then today else lp)
    (hr : r = setMonthAdd base 1) :
    calculateNextDueDate "monthly" sd (some 31) dow (some lp) today
        = some (setDayClamp r 31) ∧
      (r.month = 2 →
        (setDayClamp r 31).day = if isLeapYear r.year then 29 else 28) ∧
      ∀ dom, 1 ≤ dom →
        calculateNextDueDate "monthly" sd (some dom) dow (some lp) today
          = some ⟨r.year, r.month, min dom (getDaysInMonth r.year r.month)⟩ := by
  subst hbase hr
  have hbv : (if Date.ltb lp today then today else lp).Valid := by
    split <;> assumption
  obtain ⟨hrv, hrN⟩ := setMonthAdd_spec _ 1 hbv
  refine ⟨rfl, ?_, ?_⟩
  · intro h2
    obtain ⟨-, -, hday, -, -⟩ := setDayClamp_N _ 31 (by omega) hrv
    rw [hday, h2]
    have hfeb : getDaysInMonth
        (setMonthAdd (if Date.ltb lp today then today else lp) 1).year 2
        = if isLeapYear
            (setMonthAdd (if Date.ltb lp today then today else lp) 1).year
          then 29 else 28 := rfl
    rw [hfeb]
    cases isLeapYear
        (setMonthAdd (if Date.ltb lp today then today else lp) 1).year <;>
      simp
  · intro dom hdom
    have hred : calculateNextDueDate "monthly" sd (some dom) dow (some lp) today
        = some (setDayClamp
            (setMonthAdd (if Date.ltb lp today then today else lp) 1) dom) := rfl
    rw [hred, setDayClamp_eq _ dom hdom]

/-- C2 witness: a January 15 anchor advanced into leap-year February 2024
clamps day 31 to 29. -/
theorem c2_monthly_clamp_witness :
    calculateNextDueDate "monthly" none (some 31) none (some ⟨2024, 1, 15⟩)
      ⟨2024, 1, 15⟩ = some ⟨2024, 2, 29⟩ := by
  rw [(c2_monthly_clamp none none ⟨2024, 1, 15⟩ ⟨2024, 1, 15⟩ _ _ (by decide)
    (by decide) rfl rfl).1]
  decide

/-- C3: the weekly day-of-week snap.  First conjunct: the spec's concrete
example — `frequency=Weekly, dayOfWeek=1 (Monday), startDate=2024-01-01`,
no `lastProcessed`, `today=2024-01-10` gives `nextDue = 2024-01-22`.
Second conjunct: whenever the weekday after the 7-day jump already equals
`dayOfWeek` (`daysToAdd = 0`), no further shift is applied — the result is
exactly the 7-day jump. -/
theorem c3_weekly_snap (sd : Option Date) (dom : Option Nat) (lp today : Date)
    (w : Nat) (hlp : lp.Valid) (htoday : today.Valid)
    (hsnap : (addDays (if Date.ltb lp today then today else lp) 7).getDay = w) :
    calculateNextDueDate "weekly" (some ⟨2024, 1, 1⟩) none (some 1) none
        ⟨2024, 1, 10⟩ = some ⟨2024, 1, 22⟩ ∧
      calculateNextDueDate "weekly" sd dom (some w) (some lp) today
        = some (addDays (if Date.ltb lp today then today else lp) 7) := by
  constructor
  · decide
  · have hbv : (if Date.ltb lp today then today else lp).Valid := by
      split <;> assumption
    have h7 := addDays_spec (if Date.ltb lp today then today else lp) 7 hbv
    have hred : calculateNextDueDate "weekly" sd dom (some w) (some lp) today
        = some (addDays (addDays (if Date.ltb lp today then today else lp) 7)
            ((w + 7 -
              (addDays (if Date.ltb lp today then today else lp) 7).getDay)
              % 7)) := rfl
    rw [hred, hsnap]
    have hz : (w + 7 - w) % 7 = 0 := by omega
    rw [hz, addDays_zero _ h7.1]

/-- C3 witness: processing a Monday anchor on that same Monday keeps the
snapped date at the plain 7-day jump (2024-01-08 → 2024-01-15). -/
theorem c3_weekly_snap_witness :
    calculateNextDueDate "weekly" none none (some 1) (some ⟨2024, 1, 8⟩)
      ⟨2024, 1, 8⟩ = some ⟨2024, 1, 15⟩ := by
  rw [(c3_weekly_snap none none ⟨2024, 1, 8⟩ ⟨2024, 1, 8⟩ 1 (by decide)
    (by decide) (by decide)).2]
  decide

/-- C4: the today-collapse policy.  First conjunct: for every frequency and
every anchor strictly before `today`, `calculateNextDueDate` advances from
`today` instead of the anchor.  Second conjunct: the spec's concrete
example — `frequency=Monthly, dayOfMonth=15, lastProcessed=2024-02-15,
today=2024-03-20` gives `nextDue = 2024-04-15`. -/
theorem c4_today_collapse (freq : String) (sd : Option Date)
    (dom dow : Option Nat) (lp today : Date)
    (hlt : Date.ltb lp today = true) :
    calculateNextDueDate freq sd dom dow (some lp) today
        = some (advanceByFrequency freq dom dow today) ∧
      calculateNextDueDate "monthly" none (some 15) none (some ⟨2024, 2, 15⟩)
        ⟨2024, 3, 20⟩ = some ⟨2024, 4, 15⟩ := by
  constructor
  · simp only [calculateNextDueDate, hlt, if_true]
  · decide

/-- C4 witness: a stale daily anchor 2024-01-01 processed on 2024-01-05
advances from 2024-01-05. -/
theorem c4_today_collapse_witness :
    calculateNextDueDate "daily" none none none (some ⟨2024, 1, 1⟩)
      ⟨2024, 1, 5⟩ = some (advanceByFrequency "daily" none none ⟨2024, 1, 5⟩) :=
  (c4_today_collapse "daily" none none none ⟨2024, 1, 1⟩ ⟨2024, 1, 5⟩
    (by decide)).1

/-- C5 counterexample: the claim is false — for the unknown frequency
string "fortnightly" with `dayOfMonth = 15` supplied, the default branch
adds one month but skips the day-of-month clamp that the Monthly branch
applies, so the two results differ at this input (2024-04-20 vs
2024-04-15). -/
theorem c5_unknown_frequency_no_clamp :
    calculateNextDueDate "fortnightly" (some ⟨2024, 3, 20⟩) (some 15) none
        (some ⟨2024, 3, 20⟩) ⟨2024, 3, 20⟩ = some ⟨2024, 4, 20⟩ ∧
      calculateNextDueDate "monthly" (some ⟨2024, 3, 20⟩) (some 15) none
        (some ⟨2024, 3, 20⟩) ⟨2024, 3, 20⟩ = some ⟨2024, 4, 15⟩ ∧
      (⟨2024, 4, 20⟩ : Date) ≠ ⟨2024, 4, 15⟩ := by
  decide

/-- C5 (amended): for every frequency string that is not one of the six
known values, `calculateNextDueDate` adds one calendar month from base like
Monthly but applies no day-of-month clamp: it behaves exactly as Monthly
with `dayOfMonth` absent, for any supplied `dayOfMonth`. -/
theorem c5_unknown_frequency_amended (freq : String)
    (h1 : freq ≠ "daily") (h2 : freq ≠ "weekly") (h3 : freq ≠ "biweekly")
    (h4 : freq ≠ "monthly") (h5 : freq ≠ "quarterly") (h6 : freq ≠ "yearly")
    (sd : Option Date) (dom dow : Option Nat) (lp : Option Date)
    (today : Date) :
    calculateNextDueDate freq sd dom dow lp today
      = calculateNextDueDate "monthly" sd none dow lp today := by
  rcases lp with _ | lpd
  · rcases sd with _ | sdd
    · rfl
    · show some (advanceByFrequency freq dom dow _)
        = some (advanceByFrequency "monthly" none dow _)
      rw [advanceByFrequency_default freq dom dow _ h1 h2 h3 h4 h5 h6]
      rfl
  · show some (advanceByFrequency freq dom dow _)
      = some (advanceByFrequency "monthly" none dow _)
    rw [advanceByFrequency_default freq dom dow _ h1 h2 h3 h4 h5 h6]
    rfl

/-- C5 amended-claim witness at the counterexample's input. -/
theorem c5_unknown_frequency_amended_witness :
    calculateNextDueDate "fortnightly" (some ⟨2024, 3, 20⟩) (some 15) none
        (some ⟨2024, 3, 20⟩) ⟨2024, 3, 20⟩
      = calculateNextDueDate "monthly" (some ⟨2024, 3, 20⟩) none none
        (some ⟨2024, 3, 20⟩) ⟨2024, 3, 20⟩ :=
  c5_unknown_frequency_amended "fortnightly" (by decide) (by decide)
    (by decide) (by decide) (by decide) (by decide) (some ⟨2024, 3, 20⟩)
    (some 15) none (some ⟨2024, 3, 20⟩) ⟨2024, 3, 20⟩

/-- C7: anchor resolution of `calculateNextDueDate`.  If both
`lastProcessed` and `startDate` are absent/unparseable the function returns
`none` (and, being total, cannot crash); if `lastProcessed` parses it is
the base regardless of `startDate`; otherwise a parsed `startDate` is the
base. -/
theorem c7_invalid_anchor (freq : String) (dom dow : Option Nat)
    (today : Date) :
    calculateNextDueDate freq none dom dow none today = none ∧
      (∀ (lp : Date) (sd : Option Date),
        calculateNextDueDate freq sd dom dow (some lp) today
          = calculateNextDueDate freq none dom dow (some lp) today) ∧
      (∀ sd : Date,
        calculateNextDueDate freq (some sd) dom dow none today
          = some (advanceByFrequency freq dom dow
              (if Date.ltb sd today then today else sd))) :=
  ⟨rfl, fun _ _ => rfl, fun _ => rfl⟩

/-- C6 counterexample: the claim is false as stated.  For a Weekly template
snapped to Monday, processing on Tuesday 2024-01-09 and again on Wednesday
2024-01-10 (strictly increasing `today` values) computes the same
`nextDue = 2024-01-22`, so the sequence is not strictly increasing; worse,
for a Monthly template with no `dayOfMonth`, processing on 2024-01-31 then
2024-02-01 computes `nextDue` 2024-03-02 then 2024-03-01 — a strict
decrease (the one-month add normalizes Jan 31 + 1 month to Mar 2). -/
theorem c6_strict_increase_fails :
    Date.ltb ⟨2024, 1, 9⟩ ⟨2024, 1, 10⟩ = true ∧
      processedNextDue
        ⟨"weekly", none, some 1, some ⟨2024, 1, 1⟩, none, none, none, true⟩
        ⟨2024, 1, 9⟩ = some ⟨2024, 1, 22⟩ ∧
      processedNextDue
        ⟨"weekly", none, some 1, some ⟨2024, 1, 1⟩, none, none, none, true⟩
        ⟨2024, 1, 10⟩ = some ⟨2024, 1, 22⟩ ∧
      Date.ltb ⟨2024, 1, 31⟩ ⟨2024, 2, 1⟩ = true ∧
      processedNextDue
        ⟨"monthly", none, none, some ⟨2024, 1, 1⟩, none, none, none, true⟩
        ⟨2024, 1, 31⟩ = some ⟨2024, 3, 2⟩ ∧
      processedNextDue
        ⟨"monthly", none, none, some ⟨2024, 1, 1⟩, none, none, none, true⟩
        ⟨2024, 2, 1⟩ = some ⟨2024, 3, 1⟩ ∧
      Date.ltb ⟨2024, 3, 1⟩ ⟨2024, 3, 2⟩ = true := by
  decide

/-- C6 (amended): for a template whose frequency is daily, weekly, biweekly
or yearly, or monthly/quarterly with a `dayOfMonth ≥ 1` anchor
(`monotoneSchedule`), repeated `processRecurringTransaction` calls with
strictly increasing valid `today` values — each persisting
`lastProcessed = today` and recomputing `nextDue` from it — produce a
nondecreasing (not in general strictly increasing) sequence of `nextDue`
values. -/
theorem c6_nextDue_monotone (t : RecurringTransaction)
    (hm : monotoneSchedule t) (todays nextDues : Nat → Date)
    (hv : ∀ i, (todays i).Valid)
    (hinc : ∀ i j, i < j → toDayNumber (todays i) < toDayNumber (todays j))
    (he : ∀ i, processedNextDue t (todays i) = some (nextDues i)) :
    ∀ i j, i < j → toDayNumber (nextDues i) ≤ toDayNumber (nextDues j) := by
  intro i j hij
  exact processedNextDue_mono t hm (todays i) (todays j) (hv i) (hv j)
    (le_of_lt (hinc i j hij)) _ _ (he i) (he j)

/-- C6 witness: a daily template processed on consecutive days. -/
theorem c6_nextDue_monotone_witness :
    toDayNumber (advanceByFrequency "daily" none none
        (addDays ⟨2024, 1, 1⟩ 0))
      ≤ toDayNumber (advanceByFrequency "daily" none none
        (addDays ⟨2024, 1, 1⟩ 1)) := by
  refine c6_nextDue_monotone
    ⟨"daily", none, none, some ⟨2024, 1, 1⟩, none, none, none, true⟩
    (Or.inl rfl) (fun i => addDays ⟨2024, 1, 1⟩ i)
    (fun i => advanceByFrequency "daily" none none (addDays ⟨2024, 1, 1⟩ i))
    (fun i => (addDays_spec ⟨2024, 1, 1⟩ i (by decide)).1) ?_
    (fun i => processedNextDue_eq _ _) 0 1 (by omega)
  intro i j hij
  show toDayNumber (addDays ⟨2024, 1, 1⟩ i)
    < toDayNumber (addDays ⟨2024, 1, 1⟩ j)
  have hi := (addDays_spec ⟨2024, 1, 1⟩ i (by decide)).2
  have hj := (addDays_spec ⟨2024, 1, 1⟩ j (by decide)).2
  omega

/-- C8 counterexample: the claim's reporting half is false.  When the first
template's persistence fails, the batch result is the bare rethrown error,
which carries no success count: a batch with one success before the failure
and a batch with none produce the identical result `Except.error "boom"`
(while, per the claim's first half, the template after the failure is
indeed never attempted). -/
theorem c8_failure_reports_no_count :
    processLoop
        [(⟨"daily", none, none, some ⟨2024, 1, 1⟩, none, none, none, true⟩,
            Except.error "boom"),
          (⟨"daily", none, none, some ⟨2024, 1, 2⟩, none, none, none, true⟩,
            Except.ok ())] = Except.error "boom" ∧
      processLoop
        [(⟨"daily", none, none, some ⟨2024, 1, 2⟩, none, none, none, true⟩,
            Except.ok ()),
          (⟨"daily", none, none, some ⟨2024, 1, 1⟩, none, none, none, true⟩,
            Except.error "boom")] = Except.error "boom" ∧
      attemptedTemplates
        [(⟨"daily", none, none, some ⟨2024, 1, 1⟩, none, none, none, true⟩,
            Except.error "boom"),
          (⟨"daily", none, none, some ⟨2024, 1, 2⟩, none, none, none, true⟩,
            Except.ok ())]
        = [⟨"daily", none, none, some ⟨2024, 1, 1⟩, none, none, none, true⟩] :=
  ⟨rfl, rfl, rfl⟩

/-- C8 (amended): within one `processDueRecurringTransactions` batch, a
persistence failure on the k-th due template aborts templates k+1..n (they
are never attempted), and the batch rejects with the bare error — the
number of templates that succeeded before the failure is not reported to
the caller. -/
theorem c8_batch_abort
    (pre post : List (RecurringTransaction × Except String Unit))
    (t : RecurringTransaction) (e : String)
    (hpre : ∀ p ∈ pre, p.2 = Except.ok ()) :
    processLoop (pre ++ (t, Except.error e) :: post) = Except.error e ∧
      attemptedTemplates (pre ++ (t, Except.error e) :: post)
        = pre.map Prod.fst ++ [t] := by
  induction pre with
  | nil => exact ⟨rfl, rfl⟩
  | cons p pre ih =>
    have hp := hpre p (by simp)
    obtain ⟨tp, rp⟩ := p
    simp only at hp
    subst hp
    have ih' := ih fun q hq => hpre q (by simp [hq])
    simp only [List.cons_append, processLoop, attemptedTemplates, List.map,
      List.append_eq]
    rw [ih'.1, ih'.2]
    exact ⟨rfl, rfl⟩

/-- C8 amended-claim witness: one success, then a failure, then an
unreached template. -/
theorem c8_batch_abort_witness :
    processLoop
        ([(⟨"daily", none, none, some ⟨2024, 1, 2⟩, none, none, none, true⟩,
            Except.ok ())] ++
          (⟨"daily", none, none, some ⟨2024, 1, 1⟩, none, none, none, true⟩,
            Except.error "boom") ::
          [(⟨"daily", none, none, some ⟨2024, 1, 3⟩, none, none, none, true⟩,
            Except.ok ())]) = Except.error "boom" ∧
      attemptedTemplates
        ([(⟨"daily", none, none, some ⟨2024, 1, 2⟩, none, none, none, true⟩,
            Except.ok ())] ++
          (⟨"daily", none, none, some ⟨2024, 1, 1⟩, none, none, none, true⟩,
            Except.error "boom") ::
          [(⟨"daily", none, none, some ⟨2024, 1, 3⟩, none, none, none, true⟩,
            Except.ok ())])
        = List.map Prod.fst
            [(⟨"daily", none, none, some ⟨2024, 1, 2⟩, none, none, none, true⟩,
              (Except.ok () : Except String Unit))] ++
          [⟨"daily", none, none, some ⟨2024, 1, 1⟩, none, none, none, true⟩] :=
  c8_batch_abort
    [(⟨"daily", none, none, some ⟨2024, 1, 2⟩, none, none, none, true⟩,
      Except.ok ())]
    [(⟨"daily", none, none, some ⟨2024, 1, 3⟩, none, none, none, true⟩,
      Except.ok ())]
    ⟨"daily", none, none, some ⟨2024, 1, 1⟩, none, none, none, true⟩ "boom"
    (by simp)

/-- C9: `toggleRecurringTransactionStatus` writes the boolean literal to the
single Active cell (column N, index 13) of the addressed row and changes no
other cell of the sheet — in particular the LastProcessed (column M) and
every other stored field of every template are unchanged. -/
theorem c9_toggle_frame (grid : Nat → Nat → String) (rowNumber : Nat)
    (activeStatus : Bool) :
    toggleRecurringTransactionStatus grid rowNumber activeStatus rowNumber 13
        = (if activeStatus then "TRUE" else "FALSE") ∧
      ∀ r c, r ≠ rowNumber ∨ c ≠ 13 →
        toggleRecurringTransactionStatus grid rowNumber activeStatus r c
          = grid r c := by
  constructor
  · simp [toggleRecurringTransactionStatus]
  · intro r c hrc
    unfold toggleRecurringTransactionStatus
    rcases hrc with h | h <;> simp [h]

/-- C9 witness: toggling row 5 sets its Active cell and leaves another cell
of the same row unchanged. -/
theorem c9_toggle_frame_witness :
    toggleRecurringTransactionStatus (fun _ _ => "x") 5 true 5 13 = "TRUE" ∧
      toggleRecurringTransactionStatus (fun _ _ => "x") 5 true 5 12 = "x" :=
  ⟨(c9_toggle_frame (fun _ _ => "x") 5 true).1,
    (c9_toggle_frame (fun _ _ => "x") 5 true).2 5 12 (by omega)⟩

/-- C10: when the template fetch fails (rejected transport or non-OK
status — both land in the same `catch`), `getRecurringTransactions`
returns the empty list instead of propagating the error, and a subsequent
`processDueRecurringTransactions` returns 0 successfully, signalling no
failure to its caller. -/
theorem c10_fetch_failure_empty (e : String) (today : Date)
    (outcomes : RecurringTransaction → Except String Unit) :
    getRecurringTransactions (Except.error e) today = [] ∧
      processDueRecurringTransactions (Except.error e) today outcomes
        = Except.ok 0 :=
  ⟨rfl, rfl⟩
